import Mathlib

set_option maxRecDepth 8000

/-!
Shallow embedding of the talklocal real-time transcription pipeline
(package `talklocal`, files `models.py`, `handle_error.py`,
`main/process_request.py`, `main/generate_subtitle.py`,
`main/generate_output.py`, `main/translate_transcript.py`).

Modelling conventions:
* Python strings are Lean `String`s; the ASCII cores of `str.lower`,
  `str.strip`, `str.isdigit` and of the regex classes used by the code
  are modelled by executable Lean functions (`pyLower`, `pyStrip`,
  `pyIsDigit`, `isWordChar`).
* Timestamps are modelled at the instant level as rational numbers of
  seconds, with `calculate_end_time` embedded as a function on instants
  and the Python float arithmetic embedded as exact rational arithmetic.
  The string rendering the code performs afterwards —
  `end_dt.strftime("%H:%M:%S.%f")[:-3] + "Z"` — renders only the time of
  day, wrapping modulo 24 hours after the `timedelta` addition; it is
  modelled by `formatTimeOfDay` / `calculate_end_time_rendered` below.
* On-disk text files are modelled as lists of lines (`List String`);
  a file that may not exist is `Option (List String)`.  Every write the
  code performs ends in a newline, so the line-level model is exact.
* The Python attribute `is_partial` is rendered `partial_flag` (the name
  used by `generate_subtitle.py` for the same datum).
-/

/-- Python `str.lower()` as applied to language codes (ASCII model, applied
characterwise so that it evaluates by kernel reduction). -/
def pyLower (s : String) : String := String.mk (s.data.map Char.toLower)

/-- Characters of the regex class `\w` (ASCII core: letters, digits, underscore). -/
def isWordChar (c : Char) : Bool := c.isAlphanum || c == '_'

/-- Number of maximal runs of characters satisfying `p` in `s`: this is
`len(re.findall(r'C+', s))` for a character class `C`. -/
def countRuns (p : Char → Bool) (s : String) : Nat :=
  (s.data.foldl
    (fun st c => if p c then (true, if st.1 then st.2 else st.2 + 1) else (false, st.2))
    ((false, 0) : Bool × Nat)).2

/-- `word_count = len(re.findall(r'\w+', text))` from `calculate_end_time`. -/
def countWords (text : String) : Nat := countRuns isWordChar text

/-- `punctuation_count = len(re.findall(r'[.,?!]', text))` from `calculate_end_time`. -/
def countPunct (text : String) : Nat :=
  (text.data.filter (fun c => c == '.' || c == ',' || c == '?' || c == '!')).length

/-- `sentence_count = len(re.split(r'[.!?]', text))` from `calculate_end_time`:
splitting on a single-character class yields one segment more than there are
separator occurrences. -/
def sentence_count (text : String) : Nat :=
  (text.data.filter (fun c => c == '.' || c == '!' || c == '?')).length + 1

/-- The duration (in seconds) that `SubtitleGenerator.calculate_end_time` adds to
the start instant, embedded in exact rational arithmetic:
`word_count * (60 / average_words_per_minute) + punctuation_count * 1.2 + sentence_count * 3`. -/
def additional_seconds (text : String) (average_words_per_minute : ℚ) : ℚ :=
  (countWords text : ℚ) * (60 / average_words_per_minute)
    + (countPunct text : ℚ) * (12 / 10)
    + (sentence_count text : ℚ) * 3

/-- `SubtitleGenerator.calculate_end_time` at the instant level:
`None` start returns `None`, otherwise the end instant is the start instant
plus `additional_seconds`.  This is the value of `end_dt` before the final
`strftime` rendering; the rendering wraps modulo 24 hours and is modelled
separately by `calculate_end_time_rendered`. -/
def calculate_end_time (start_time : Option ℚ) (text : String)
    (average_words_per_minute : ℚ) : Option ℚ :=
  match start_time with
  | Option.none => Option.none
  | Option.some s => Option.some (s + additional_seconds text average_words_per_minute)

/-- Modelled from the spec's words, for comparison only (claim C3 states this
formula): the claimed added duration with `word_count` taken as the number of
whitespace-delimited tokens (maximal runs of non-whitespace characters), the
other two counts as in the code. -/
def spec_claim_duration (text : String) (wpm : ℚ) : ℚ :=
  (countRuns (fun c => !c.isWhitespace) text : ℚ) * (60 / wpm)
    + (countPunct text : ℚ) * (12 / 10)
    + (sentence_count text : ℚ) * 3

/-- C3 counterexample: for the text `"a-b"` the code adds
`2 * 0.4 + 3 = 3.8` seconds (the regex `\w+` finds the two runs `a` and `b`),
while the claim's whitespace-token count predicts `1 * 0.4 + 3 = 3.4` seconds,
so `calculate_end_time` does not add the claimed duration. -/
theorem c3_counterexample_word_tokens :
    calculate_end_time (Option.some 0) "a-b" 150
      ≠ Option.some (0 + spec_claim_duration "a-b" 150) := by
  have h1 : countWords "a-b" = 2 := rfl
  have h2 : countPunct "a-b" = 0 := rfl
  have h3 : sentence_count "a-b" = 1 := rfl
  have h4 : countRuns (fun c => !c.isWhitespace) "a-b" = 1 := rfl
  simp only [calculate_end_time, additional_seconds, spec_claim_duration,
    h1, h2, h3, h4, Option.some.injEq]
  norm_num

/-- C3 (amended): for every start instant and every text,
`calculate_end_time` with `words_per_minute = 150` adds exactly
`word_count * (2/5) + punctuation_count * (6/5) + sentence_count * 3` seconds,
where `word_count` counts maximal runs of word characters (regex `\w+`),
`punctuation_count` counts occurrences of `.`, `,`, `?`, `!`, and
`sentence_count` is one more than the number of occurrences of `.`, `!`, `?`
(hence at least 1 even for empty input); in particular for `"Hello world."`
the added duration is exactly 8 seconds. -/
theorem c3_duration_formula :
    (∀ (s : ℚ) (text : String),
      calculate_end_time (Option.some s) text 150 =
        Option.some (s + (countWords text : ℚ) * (2 / 5)
          + (countPunct text : ℚ) * (6 / 5) + (sentence_count text : ℚ) * 3)) ∧
    calculate_end_time (Option.some 0) "Hello world." 150 = Option.some 8 := by
  constructor
  · intro s text
    simp only [calculate_end_time, additional_seconds, Option.some.injEq]
    ring_nf
  · have h1 : countWords "Hello world." = 2 := rfl
    have h2 : countPunct "Hello world." = 1 := rfl
    have h3 : sentence_count "Hello world." = 2 := rfl
    simp only [calculate_end_time, additional_seconds, h1, h2, h3, Option.some.injEq]
    norm_num

/-- C4: `calculate_end_time` is deterministic: two calls with equal start,
equal text and equal words-per-minute return equal results (the source reads
no external state). -/
theorem c4_deterministic :
    ∀ (s₁ s₂ : Option ℚ) (t₁ t₂ : String) (w₁ w₂ : ℚ),
      s₁ = s₂ → t₁ = t₂ → w₁ = w₂ →
      calculate_end_time s₁ t₁ w₁ = calculate_end_time s₂ t₂ w₂ := by
  intro s₁ s₂ t₁ t₂ w₁ w₂ h1 h2 h3
  rw [h1, h2, h3]

/-- C4 witness: the determinism theorem instantiated at a concrete input. -/
theorem c4_deterministic_witness :
    calculate_end_time (Option.some 0) "Hello world." 150 =
      calculate_end_time (Option.some 0) "Hello world." 150 :=
  c4_deterministic _ _ _ _ _ _ rfl rfl rfl

/-- The added duration at 150 words per minute is at least 3 seconds, since
every term is nonnegative and `sentence_count` is at least 1. -/
lemma additional_seconds_ge_three (text : String) :
    (3 : ℚ) ≤ additional_seconds text 150 := by
  unfold additional_seconds sentence_count
  have h1 : (0 : ℚ) ≤ (countWords text : ℚ) * (60 / 150) := by positivity
  have h2 : (0 : ℚ) ≤ (countPunct text : ℚ) * (12 / 10) := by positivity
  have h3 : (0 : ℚ) ≤ ((text.data.filter
      (fun c => c == '.' || c == '!' || c == '?')).length : ℚ) := by positivity
  push_cast
  nlinarith

/-- The added duration of the empty text at 150 words per minute is exactly
the 3 seconds of its single (empty) sentence segment. -/
lemma additional_seconds_empty : additional_seconds "" 150 = 3 := by
  have h1 : countWords "" = 0 := rfl
  have h2 : countPunct "" = 0 := rfl
  have h3 : sentence_count "" = 1 := rfl
  unfold additional_seconds
  rw [h1, h2, h3]
  norm_num

/-!
Subtitle file writer (`SubtitleGenerator.generate_srt_subtitle`,
`generate_vtt_subtitle`, `get_next_cue_number`).

A file on disk is a list of lines, `Option (List String)` with `none` for a
file that does not exist.  Every `write` the Python code performs ends in a
newline, so the file content is exactly the concatenation of written lines.
The start/end timestamp strings (rendered from `datetime.now()` and
`calculate_end_time`) are inputs of the model.
-/

/-- Python `str.strip()` on a character list (ASCII whitespace model). -/
def stripChars (l : List Char) : List Char :=
  ((l.dropWhile Char.isWhitespace).reverse.dropWhile Char.isWhitespace).reverse

/-- Python `str.strip()`. -/
def pyStrip (s : String) : String := String.mk (stripChars s.data)

/-- Python truthiness-plus-`str.isdigit()` test used by `get_next_cue_number`:
nonempty and all characters decimal digits. -/
def pyIsDigit (s : String) : Bool := !s.data.isEmpty && s.data.all Char.isDigit

/-- The test applied to each (stripped) line while scanning for the last cue
number: `stripped_line and stripped_line.isdigit()`. -/
def digitLineTest (l : String) : Bool := pyIsDigit (pyStrip l)

/-- The lines a Python `write` of `s + "\n"` contributes to the file: `s`
split at newline characters (so a newline-free `s` contributes one line). -/
def pyLines (s : String) : List String :=
  (s.data.foldr
    (fun c gs =>
      match gs with
      | g :: rest => if c = '\n' then [] :: g :: rest else (c :: g) :: rest
      | [] => [[c]])
    [[]]).map (fun l => String.mk l)

/-- The decimal digit character for `d < 10` (used to render cue numbers). -/
def digitChar (d : Nat) : Char :=
  match d with
  | 0 => '0'
  | 1 => '1'
  | 2 => '2'
  | 3 => '3'
  | 4 => '4'
  | 5 => '5'
  | 6 => '6'
  | 7 => '7'
  | 8 => '8'
  | _ => '9'

/-- Fuel-driven decimal rendering of a natural number (most significant digit
first); with fuel above `n` this is the usual decimal numeral. -/
def natReprCore : Nat → Nat → List Char
  | 0, _ => []
  | fuel + 1, n =>
    if n < 10 then [digitChar n] else natReprCore fuel (n / 10) ++ [digitChar (n % 10)]

/-- Decimal rendering of a natural number, the model of Python `f"{cue}"`. -/
def natRepr (n : Nat) : String := String.mk (natReprCore (n + 1) n)

/-- Decimal parsing of a digit list, the model of Python `int(stripped_line)`
on a digit-only string. -/
def parseListNat (l : List Char) : Nat :=
  l.foldl (fun a c => a * 10 + (c.toNat - 48)) 0

/-- Decimal parsing of a digit-only string. -/
def parseNat (s : String) : Nat := parseListNat s.data

/-- `SubtitleGenerator.get_next_cue_number`: `1` if the file does not exist or
has no lines; otherwise scan the lines in reverse for the last stripped
digit-only line and return its value plus one, or `None` if no such line
exists. -/
def get_next_cue_number (file : Option (List String)) : Option Nat :=
  match file with
  | Option.none => Option.some 1
  | Option.some lines =>
    if lines.isEmpty then Option.some 1
    else
      match lines.reverse.find? digitLineTest with
      | Option.some l => Option.some (parseNat (pyStrip l) + 1)
      | Option.none => Option.none

/-- One `generate_srt_subtitle` call: returns the cue number actually written
and the new file lines.  `file_empty` is computed before the append-mode open
creates the file; `get_next_cue_number` then runs on the (now existing) file;
the cue defaults to 1 when the file was empty or the scan failed.  The write
is `cue`, `start --> end`, the text, and a blank line. -/
def srtWrite (file : Option (List String)) (start_time end_time text : String) :
    Nat × List String :=
  let file_empty : Bool :=
    match file with
    | Option.none => true
    | Option.some lines => lines.isEmpty
  let content := file.getD []
  let cue0 := get_next_cue_number (Option.some content)
  let cue : Nat :=
    match cue0 with
    | Option.none => 1
    | Option.some c => if file_empty then 1 else c
  (cue,
    content ++ [natRepr cue, start_time ++ " --> " ++ end_time] ++ pyLines text ++ [""])

/-- `SubtitleGenerator.generate_srt_subtitle` as a file transformer. -/
def generate_srt_subtitle (file : Option (List String))
    (start_time end_time text : String) : Option (List String) :=
  Option.some (srtWrite file start_time end_time text).2

/-- Run a sequence of SRT cue writes (each item is start time, end time, text)
against a file, returning the list of cue numbers written in order. -/
def srtRun (file : Option (List String)) :
    List (String × String × String) → List Nat
  | [] => []
  | w :: ws =>
    let r := srtWrite file w.1 w.2.1 w.2.2
    r.1 :: srtRun (Option.some r.2) ws

/-- The list `a, a+1, ..., a+n-1` (the claimed cue-number sequence). -/
def countUpFrom (a : Nat) : Nat → List Nat
  | 0 => []
  | n + 1 => a :: countUpFrom (a + 1) n

/-- One `generate_vtt_subtitle` call: returns whether the `WEBVTT` header was
written (the file was empty or absent before the call) and the new file
lines.  The write is the optional header (`WEBVTT` plus a blank line), then
`start --> end`, then the text (no blank line after a cue). -/
def vttWrite (file : Option (List String)) (start_time end_time text : String) :
    Bool × List String :=
  let file_empty : Bool :=
    match file with
    | Option.none => true
    | Option.some lines => lines.isEmpty
  let content := file.getD []
  (file_empty,
    content ++ (if file_empty then ["WEBVTT", ""] else [])
      ++ [start_time ++ " --> " ++ end_time] ++ pyLines text)

/-- `SubtitleGenerator.generate_vtt_subtitle` as a file transformer. -/
def generate_vtt_subtitle (file : Option (List String))
    (start_time end_time text : String) : Option (List String) :=
  Option.some (vttWrite file start_time end_time text).2

/-- Run a sequence of VTT cue writes against a file, returning the header
flags (whether each call wrote the `WEBVTT` header) and the final file. -/
def vttRun (file : Option (List String)) :
    List (String × String × String) → List Bool × Option (List String)
  | [] => ([], file)
  | w :: ws =>
    let r := vttWrite file w.1 w.2.1 w.2.2
    let rest := vttRun (Option.some r.2) ws
    (r.1 :: rest.1, rest.2)

lemma dropWhile_of_head_false {α : Type} (p : α → Bool) (l : List α)
    (h : ∀ c ∈ l, p c = false) : l.dropWhile p = l := by
  cases l with
  | nil => rfl
  | cons a t => simp [List.dropWhile, h a (List.mem_cons_self a t)]

lemma stripChars_of_no_ws (l : List Char) (h : ∀ c ∈ l, c.isWhitespace = false) :
    stripChars l = l := by
  unfold stripChars
  rw [dropWhile_of_head_false Char.isWhitespace l h]
  rw [dropWhile_of_head_false Char.isWhitespace l.reverse
    (fun c hc => h c (List.mem_reverse.mp hc))]
  exact List.reverse_reverse l

lemma mem_dropWhile_of_neg {α : Type} (p : α → Bool) :
    ∀ (l : List α) (c : α), c ∈ l → p c = false → c ∈ l.dropWhile p := by
  intro l
  induction l with
  | nil => intro c hc; cases hc
  | cons a t ih =>
    intro c hc hp
    cases hpa : p a with
    | true =>
      rcases List.mem_cons.mp hc with h1 | h1
      · subst h1; rw [hp] at hpa; cases hpa
      · simpa [List.dropWhile, hpa] using ih c h1 hp
    | false => simpa [List.dropWhile, hpa] using hc

lemma mem_stripChars (c : Char) (l : List Char) (hc : c ∈ l)
    (hw : c.isWhitespace = false) : c ∈ stripChars l := by
  unfold stripChars
  have h1 := mem_dropWhile_of_neg Char.isWhitespace l c hc hw
  have h2 : c ∈ (l.dropWhile Char.isWhitespace).reverse := List.mem_reverse.mpr h1
  have h3 := mem_dropWhile_of_neg Char.isWhitespace _ c h2 hw
  exact List.mem_reverse.mpr h3

lemma tsline_not_digit (s e : String) :
    digitLineTest (s ++ " --> " ++ e) = false := by
  have hdata : (s ++ " --> " ++ e).data = s.data ++ " --> ".data ++ e.data := by
    cases s
    cases e
    rfl
  have hd : '-' ∈ (s ++ " --> " ++ e).data := by
    rw [hdata]
    refine List.mem_append.mpr (Or.inl (List.mem_append.mpr (Or.inr ?_)))
    decide
  have hmem : '-' ∈ (pyStrip (s ++ " --> " ++ e)).data :=
    mem_stripChars '-' _ hd (by decide)
  unfold digitLineTest pyIsDigit
  cases hall : (pyStrip (s ++ " --> " ++ e)).data.all Char.isDigit with
  | false => simp [hall]
  | true =>
    exfalso
    have hdig := List.all_eq_true.mp hall '-' hmem
    exact absurd hdig (by decide)

lemma find?_append_all_false {α : Type} (p : α → Bool) :
    ∀ (l₁ l₂ : List α), (∀ x ∈ l₁, p x = false) →
      (l₁ ++ l₂).find? p = l₂.find? p := by
  intro l₁
  induction l₁ with
  | nil => intro l₂ h; rfl
  | cons a t ih =>
    intro l₂ h
    have ha : p a = false := h a (List.mem_cons_self a t)
    simp only [List.cons_append, List.find?, ha]
    exact ih l₂ (fun x hx => h x (List.mem_cons_of_mem a hx))

lemma digitChar_props (d : Nat) (h : d < 10) :
    (digitChar d).isDigit = true ∧ (digitChar d).isWhitespace = false ∧
      (digitChar d).toNat - 48 = d := by
  interval_cases d <;> exact ⟨by decide, by decide, by decide⟩

lemma natReprCore_spec : ∀ (fuel n : Nat), n < fuel →
    natReprCore fuel n ≠ [] ∧
    (∀ c ∈ natReprCore fuel n, c.isDigit = true ∧ c.isWhitespace = false) ∧
    parseListNat (natReprCore fuel n) = n := by
  intro fuel
  induction fuel with
  | zero => intro n h; exact absurd h (Nat.not_lt_zero n)
  | succ fuel ih =>
    intro n h
    by_cases h10 : n < 10
    · simp only [natReprCore, if_pos h10]
      obtain ⟨hd1, hd2, hd3⟩ := digitChar_props n h10
      refine ⟨by simp, ?_, ?_⟩
      · intro c hc
        rw [List.mem_singleton.mp hc]
        exact ⟨hd1, hd2⟩
      · simp [parseListNat, hd3]
    · simp only [natReprCore, if_neg h10]
      have hfuel : n / 10 < fuel := by
        have h1 : n / 10 < n := Nat.div_lt_self (by omega) (by omega)
        omega
      obtain ⟨hne, hmem, hparse⟩ := ih (n / 10) hfuel
      obtain ⟨hm1, hm2, hm3⟩ := digitChar_props (n % 10) (Nat.mod_lt n (by omega))
      refine ⟨by simp, ?_, ?_⟩
      · intro c hc
        rcases List.mem_append.mp hc with h1 | h1
        · exact hmem c h1
        · rw [List.mem_singleton.mp h1]
          exact ⟨hm1, hm2⟩
      · unfold parseListNat
        rw [List.foldl_append]
        have : parseListNat (natReprCore fuel (n / 10)) * 10 +
            ((digitChar (n % 10)).toNat - 48) = n := by
          rw [hm3, hparse]
          omega
        simpa [parseListNat] using this

lemma natRepr_data_props (n : Nat) :
    (natRepr n).data ≠ [] ∧
    (∀ c ∈ (natRepr n).data, c.isDigit = true ∧ c.isWhitespace = false) ∧
    parseListNat ((natRepr n).data) = n :=
  natReprCore_spec (n + 1) n (Nat.lt_succ_self n)

lemma pyStrip_natRepr (n : Nat) : pyStrip (natRepr n) = natRepr n := by
  obtain ⟨hne, hmem, hparse⟩ := natRepr_data_props n
  show String.mk (stripChars (natRepr n).data) = natRepr n
  rw [stripChars_of_no_ws _ (fun c hc => (hmem c hc).2)]

lemma parseNat_natRepr (n : Nat) : parseNat (natRepr n) = n :=
  (natRepr_data_props n).2.2

lemma digitLineTest_natRepr (n : Nat) : digitLineTest (natRepr n) = true := by
  obtain ⟨hne, hmem, hparse⟩ := natRepr_data_props n
  unfold digitLineTest
  rw [pyStrip_natRepr]
  unfold pyIsDigit
  cases hL : (natRepr n).data with
  | nil => exact absurd hL hne
  | cons a t =>
    simp only [hL, List.isEmpty_cons, Bool.not_false, Bool.true_and]
    refine List.all_eq_true.mpr ?_
    intro c hc
    exact (hmem c (hL ▸ hc)).1

lemma digitLineTest_empty : digitLineTest "" = false := rfl

lemma find?_reverse_block (L : List String) (a ts : String) (tl : List String)
    (ha : digitLineTest a = true) (hts : digitLineTest ts = false)
    (htl : ∀ l ∈ tl, digitLineTest l = false) :
    (L ++ [a, ts] ++ tl ++ [""]).reverse.find? digitLineTest = Option.some a := by
  have hrev : (L ++ [a, ts] ++ tl ++ [""]).reverse
      = ("" :: tl.reverse ++ [ts]) ++ (a :: L.reverse) := by
    simp [List.reverse_append]
  rw [hrev]
  have hpre : ∀ x ∈ ("" :: tl.reverse ++ [ts]), digitLineTest x = false := by
    intro x hx
    rcases List.mem_append.mp hx with h1 | h1
    · rcases List.mem_cons.mp h1 with h2 | h2
      · rw [h2]; exact digitLineTest_empty
      · exact htl x (List.mem_reverse.mp h2)
    · rw [List.mem_singleton.mp h1]; exact hts
  rw [find?_append_all_false _ _ _ hpre]
  simp [List.find?, ha]

lemma srtWrite_some (L : List String) (k : Nat) (hL : L ≠ [])
    (hfind : L.reverse.find? digitLineTest = Option.some (natRepr k))
    (s e t : String) :
    srtWrite (Option.some L) s e t =
      (k + 1, L ++ [natRepr (k + 1), s ++ " --> " ++ e] ++ pyLines t ++ [""]) := by
  have hisE : L.isEmpty = false := by
    cases L with
    | nil => exact absurd rfl hL
    | cons a l => rfl
  unfold srtWrite get_next_cue_number
  simp [hisE, hfind, pyStrip_natRepr, parseNat_natRepr]

lemma srtWrite_fresh (s e t : String) :
    srtWrite Option.none s e t =
      (1, [] ++ [natRepr 1, s ++ " --> " ++ e] ++ pyLines t ++ [""]) := rfl

lemma srtRun_inv : ∀ (ws : List (String × String × String)) (L : List String) (k : Nat),
    L ≠ [] →
    L.reverse.find? digitLineTest = Option.some (natRepr k) →
    (∀ w ∈ ws, ∀ l ∈ pyLines w.2.2, digitLineTest l = false) →
    srtRun (Option.some L) ws = countUpFrom (k + 1) ws.length := by
  intro ws
  induction ws with
  | nil => intro L k hL hf hws; rfl
  | cons w ws ih =>
    intro L k hL hf hws
    have hw := srtWrite_some L k hL hf w.1 w.2.1 w.2.2
    have htl : ∀ l ∈ pyLines w.2.2, digitLineTest l = false :=
      hws w (List.mem_cons_self w ws)
    have hL2ne : L ++ [natRepr (k + 1), w.1 ++ " --> " ++ w.2.1]
        ++ pyLines w.2.2 ++ [""] ≠ [] := by simp
    have hfind2 : (L ++ [natRepr (k + 1), w.1 ++ " --> " ++ w.2.1]
        ++ pyLines w.2.2 ++ [""]).reverse.find? digitLineTest
          = Option.some (natRepr (k + 1)) :=
      find?_reverse_block L _ _ _ (digitLineTest_natRepr (k + 1))
        (tsline_not_digit _ _) htl
    simp only [srtRun, hw]
    rw [ih _ (k + 1) hL2ne hfind2 (fun x hx => hws x (List.mem_cons_of_mem w hx))]
    rfl

/-- C6 counterexample: two cues written to a fresh SRT file where the first
cue's text is the digit-only line `"0"`: the cue-number scan picks up the text
line, so the second cue is numbered `0 + 1 = 1` again — the written indices
are `[1, 1]`, not `[1, 2]` as the claim requires. -/
theorem c6_counterexample_digit_text :
    srtRun Option.none
        [("00:00:00.000", "00:00:03.400Z", "0"), ("00:00:01.000", "00:00:04.400Z", "x")]
      = [1, 1] ∧ ([1, 1] : List Nat) ≠ [1, 2] := by
  constructor
  · rfl
  · decide

/-- C6 (amended): for every sequence of cues written via
`generate_srt_subtitle` to the same initially nonexistent SRT file, provided
no line of any cue's text is itself a digit-only line after stripping, the
cue index written before each cue starts at 1 and increases by exactly 1; the
index is derived by scanning the file tail for the last integer-only line and
resets to 1 when the file is empty or the scan finds none. -/
theorem c6_cue_numbers_increment (ws : List (String × String × String))
    (h : ∀ w ∈ ws, ∀ l ∈ pyLines w.2.2, digitLineTest l = false) :
    srtRun Option.none ws = countUpFrom 1 ws.length := by
  cases ws with
  | nil => rfl
  | cons w ws =>
    have hw := srtWrite_fresh w.1 w.2.1 w.2.2
    have htl : ∀ l ∈ pyLines w.2.2, digitLineTest l = false :=
      h w (List.mem_cons_self w ws)
    have hfind1 : (([] : List String) ++ [natRepr 1, w.1 ++ " --> " ++ w.2.1]
        ++ pyLines w.2.2 ++ [""]).reverse.find? digitLineTest
          = Option.some (natRepr 1) :=
      find?_reverse_block [] _ _ _ (digitLineTest_natRepr 1)
        (tsline_not_digit _ _) htl
    have hne : ([] : List String) ++ [natRepr 1, w.1 ++ " --> " ++ w.2.1]
        ++ pyLines w.2.2 ++ [""] ≠ [] := by simp
    simp only [srtRun, hw]
    rw [srtRun_inv ws _ 1 hne hfind1 (fun x hx => h x (List.mem_cons_of_mem w hx))]
    rfl

/-- C6 witness: two ordinary text cues on a fresh file get indices 1 and 2. -/
theorem c6_cue_numbers_witness :
    srtRun Option.none
        [("00:00:00.000", "00:00:03.400Z", "hello"),
         ("00:00:01.000", "00:00:08.600Z", "world")]
      = countUpFrom 1 2 :=
  c6_cue_numbers_increment _ (by decide)

lemma vttWrite_nonempty_file (L : List String) (hL : L ≠ []) (s e t : String) :
    vttWrite (Option.some L) s e t
      = (false, L ++ [s ++ " --> " ++ e] ++ pyLines t) := by
  have hisE : L.isEmpty = false := by
    cases L with
    | nil => exact absurd rfl hL
    | cons a l => rfl
  unfold vttWrite
  simp [hisE]

lemma vttRun_inv : ∀ (ws : List (String × String × String)) (L : List String),
    L ≠ [] →
    (vttRun (Option.some L) ws).1 = List.replicate ws.length false ∧
    (∃ M, (vttRun (Option.some L) ws).2 = Option.some M ∧ M ≠ [] ∧
      M.head? = L.head?) := by
  intro ws
  induction ws with
  | nil => intro L hL; exact ⟨rfl, L, rfl, hL, rfl⟩
  | cons w ws ih =>
    intro L hL
    have hw := vttWrite_nonempty_file L hL w.1 w.2.1 w.2.2
    obtain ⟨a, L', rfl⟩ := List.exists_cons_of_ne_nil hL
    have hL2 : (a :: L') ++ [w.1 ++ " --> " ++ w.2.1] ++ pyLines w.2.2 ≠ [] := by
      simp
    obtain ⟨h1, M, h2, h3, h4⟩ := ih _ hL2
    refine ⟨?_, M, ?_, h3, ?_⟩
    · simp only [vttRun, hw]
      rw [h1]
      rfl
    · simp only [vttRun, hw]
      exact h2
    · rw [h4]
      rfl

/-- C7: on a fresh file, any nonempty sequence of `generate_vtt_subtitle`
calls writes the `WEBVTT` header exactly on the first call (and never on a
later append to the then-nonempty file), and after the run the first line of
the file is the header, before every cue. -/
theorem c7_header_once (ws : List (String × String × String)) (h : ws ≠ []) :
    (vttRun Option.none ws).1 = true :: List.replicate (ws.length - 1) false ∧
    (∃ M, (vttRun Option.none ws).2 = Option.some M ∧
      M.head? = Option.some "WEBVTT") := by
  cases ws with
  | nil => exact absurd rfl h
  | cons w ws =>
    have hw : vttWrite Option.none w.1 w.2.1 w.2.2
        = (true, ("WEBVTT" :: [""]) ++ [w.1 ++ " --> " ++ w.2.1] ++ pyLines w.2.2) :=
      rfl
    have hL1 : ("WEBVTT" :: [""]) ++ [w.1 ++ " --> " ++ w.2.1]
        ++ pyLines w.2.2 ≠ [] := by simp
    obtain ⟨h1, M, h2, h3, h4⟩ := vttRun_inv ws _ hL1
    refine ⟨?_, M, ?_, ?_⟩
    · simp only [vttRun, hw]
      rw [h1]
      rfl
    · simp only [vttRun, hw]
      exact h2
    · rw [h4]
      rfl

/-- C7 witness: a single cue on a fresh file writes the header first. -/
theorem c7_header_once_witness :
    (vttRun Option.none [("00:00:00.000", "00:00:05.000Z", "hi")]).1
        = true :: List.replicate 0 false ∧
    (∃ M, (vttRun Option.none [("00:00:00.000", "00:00:05.000Z", "hi")]).2
        = Option.some M ∧ M.head? = Option.some "WEBVTT") :=
  c7_header_once _ (by simp)

/-!
Transcript/Translation Store (`TranscriptDataHandler`), the stream event
handler (`TranscriptHandler.handle_transcript_event`) and the session driver
(`basic_transcribe`), all from `main/process_request.py`.
-/

/-- One stored log entry: `(text, is_partial)`. -/
abbrev Entry := String × Bool

/-- `TranscriptDataHandler`: two append-only in-memory logs. -/
structure TranscriptDataHandler where
  transcript_data : List Entry
  translated_data : List Entry
deriving Repr, DecidableEq

/-- `TranscriptDataHandler.store_transcript_data`: append one pair. -/
def store_transcript_data (h : TranscriptDataHandler) (transcript_text : String)
    (partial_flag : Bool) : TranscriptDataHandler :=
  { h with transcript_data := h.transcript_data ++ [(transcript_text, partial_flag)] }

/-- `TranscriptDataHandler.get_transcript_data`: `self.transcript_data[:]`
returns a copy of the log (value semantics make the copy a plain value) and
leaves the handler unchanged. -/
def get_transcript_data (h : TranscriptDataHandler) : List Entry × TranscriptDataHandler :=
  (h.transcript_data, h)

/-- `TranscriptDataHandler.store_translated_data`: append one pair. -/
def store_translated_data (h : TranscriptDataHandler) (translated_text : String)
    (partial_flag : Bool) : TranscriptDataHandler :=
  { h with translated_data := h.translated_data ++ [(translated_text, partial_flag)] }

/-- `TranscriptDataHandler.get_translated_data`: snapshot of the translated log. -/
def get_translated_data (h : TranscriptDataHandler) : List Entry × TranscriptDataHandler :=
  (h.translated_data, h)

/-- `OutputFormat` from `models.py`. -/
inductive OutputFormat where
  | TRANSCRIPT_TEXT
  | TRANSLATED_TEXT
  | BOTH_TEXT
  | NONE
deriving Repr, DecidableEq

/-- `self.output_format in [OutputFormat.TRANSCRIPT_TEXT, OutputFormat.BOTH_TEXT]`. -/
def storeTranscriptFlag (f : OutputFormat) : Bool :=
  match f with
  | OutputFormat.TRANSCRIPT_TEXT => true
  | OutputFormat.BOTH_TEXT => true
  | _ => false

/-- `self.output_format in [OutputFormat.TRANSLATED_TEXT, OutputFormat.BOTH_TEXT]`. -/
def storeTranslatedFlag (f : OutputFormat) : Bool :=
  match f with
  | OutputFormat.TRANSLATED_TEXT => true
  | OutputFormat.BOTH_TEXT => true
  | _ => false

/-- One recognition result alternative (`alt.transcript`); named
`ResultAlternative` because `Alternative` is taken by the Lean core library. -/
structure ResultAlternative where
  transcript : String
deriving Repr, DecidableEq

/-- One recognition result: alternatives plus the `is_partial` flag
(rendered `partial_flag`). -/
structure TranscriptResult where
  alternatives : List ResultAlternative
  partial_flag : Bool
deriving Repr, DecidableEq

/-- `transcript_event.transcript` wrapper. -/
structure Transcript where
  results : List TranscriptResult
deriving Repr, DecidableEq

/-- A transcript event as delivered by the recognition stream. -/
structure TranscriptEvent where
  transcript : Transcript
deriving Repr, DecidableEq

/-- The configuration fields stored on `TranscriptHandler.__init__`. -/
structure TranscriptHandlerConfig where
  source_language : String
  target_language : String
  subtitle_format : String
  region : String
  output_format : OutputFormat
deriving Repr, DecidableEq

/-- The translation collaborator `Translate.translate_text`
(text, source code, target code, region) → translated text, modelled as an
arbitrary environment function. -/
abbrev TranslateFn := String → String → String → String → String

/-- A record of one invocation of the Translation Adapter. -/
structure TranslateCall where
  text : String
  source_language_code : String
  target_language_code : String
  region : String
deriving Repr, DecidableEq

/-- The mutable state the handler touches: the in-memory store, the two
output text files (entry per line), the two subtitle files, and a tick
counter indexing the environment clock for subtitle timestamps. -/
structure PipelineState where
  data_handler : TranscriptDataHandler
  transcript_file : List String
  translated_file : List String
  vtt_file : Option (List String)
  srt_file : Option (List String)
  tick : Nat
deriving Repr, DecidableEq

/-- The `same_languages` test of `handle_transcript_event`:
case-insensitive equality, or the documented legacy alias
`source == 'en-US' and target == 'en'`. -/
def sameLanguages (cfg : TranscriptHandlerConfig) : Bool :=
  (pyLower cfg.source_language == pyLower cfg.target_language)
    || (cfg.source_language == "en-US" && cfg.target_language == "en")

/-- The body of the inner `for alt in result.alternatives` loop of
`handle_transcript_event`: resolve the translated text (short-circuiting when
the languages are the same), write the subtitle cue in the configured format
(with start/end timestamp strings supplied by the environment clock), and —
only when the result is not partial — append to the output text files
according to the output-format policy.  Returns the new state and the list of
Translation Adapter invocations made. -/
def handleAlternative (cfg : TranscriptHandlerConfig) (tr : TranslateFn)
    (clock : Nat → String × String) (same_languages st_transcript st_translated : Bool)
    (partial_flag : Bool) (transcript_text : String) (st : PipelineState) :
    PipelineState × List TranslateCall :=
  let resolved : String × List TranslateCall :=
    if same_languages then (transcript_text, [])
    else
      (tr transcript_text cfg.source_language cfg.target_language cfg.region,
        [⟨transcript_text, cfg.source_language, cfg.target_language, cfg.region⟩])
  let translated_text := resolved.1
  let ts := clock st.tick
  let st1 : PipelineState :=
    if pyLower cfg.subtitle_format = "vtt" then
      { st with
        vtt_file := generate_vtt_subtitle st.vtt_file ts.1 ts.2 translated_text,
        tick := st.tick + 1 }
    else
      { st with
        srt_file := generate_srt_subtitle st.srt_file ts.1 ts.2 translated_text,
        tick := st.tick + 1 }
  let st2 : PipelineState :=
    if !partial_flag then
      let stA :=
        if st_transcript then
          { st1 with transcript_file := st1.transcript_file ++ [transcript_text] }
        else st1
      if st_translated then
        { stA with translated_file := stA.translated_file ++ [translated_text] }
      else stA
    else st1
  (st2, resolved.2)

/-- The inner loop over `result.alternatives`. -/
def processAlternatives (cfg : TranscriptHandlerConfig) (tr : TranslateFn)
    (clock : Nat → String × String) (same_languages st_transcript st_translated : Bool)
    (partial_flag : Bool) :
    List ResultAlternative → PipelineState → PipelineState × List TranslateCall
  | [], st => (st, [])
  | a :: rest, st =>
    let r1 := handleAlternative cfg tr clock same_languages st_transcript st_translated
      partial_flag a.transcript st
    let r2 := processAlternatives cfg tr clock same_languages st_transcript st_translated
      partial_flag rest r1.1
    (r2.1, r1.2 ++ r2.2)

/-- The outer loop over `results`. -/
def processResults (cfg : TranscriptHandlerConfig) (tr : TranslateFn)
    (clock : Nat → String × String) (same_languages st_transcript st_translated : Bool) :
    List TranscriptResult → PipelineState → PipelineState × List TranslateCall
  | [], st => (st, [])
  | r :: rest, st =>
    let r1 := processAlternatives cfg tr clock same_languages st_transcript st_translated
      r.partial_flag r.alternatives st
    let r2 := processResults cfg tr clock same_languages st_transcript st_translated
      rest r1.1
    (r2.1, r1.2 ++ r2.2)

/-- `TranscriptHandler.handle_transcript_event`: computes the output-format
flags and the `same_languages` test once, then processes every alternative of
every result.  Note that the `data_handler` stored on the handler is never
written: the final-result persistence goes to the output text files via
`OutputGenerator`. -/
def handle_transcript_event (cfg : TranscriptHandlerConfig) (tr : TranslateFn)
    (clock : Nat → String × String) (ev : TranscriptEvent) (st : PipelineState) :
    PipelineState × List TranslateCall :=
  processResults cfg tr clock (sameLanguages cfg)
    (storeTranscriptFlag cfg.output_format) (storeTranslatedFlag cfg.output_format)
    ev.transcript.results st

/-- `ErrorHandler.TranscriptionError`: message plus optional original error
(the code always constructs it with the message only, leaving
`original_error = None`). -/
structure TranscriptionError where
  message : String
  original_error : Option String
deriving Repr, DecidableEq

/-- The outcome of the streamed session (`asyncio.gather` of audio feeding
and event handling): either all events are delivered, or a transport or
handler error interrupts the stream after a prefix of events was processed. -/
inductive StreamRun where
  | success : List TranscriptEvent → StreamRun
  | failure : List TranscriptEvent → String → StreamRun
deriving Repr, DecidableEq

/-- `basic_transcribe`: build the fresh pipeline state around the supplied
`data_handler`, run the stream, and on success return
`data_handler.get_transcript_data()`.  On any exception the source executes
`ErrorHandler.TranscriptionError(f"transcript streaming client error: {e}")`
— constructing the exception object without raising it — and then
`return None`: the error value is discarded and the caller receives `None`. -/
def basic_transcribe (cfg : TranscriptHandlerConfig) (tr : TranslateFn)
    (clock : Nat → String × String) (run : StreamRun)
    (data_handler : TranscriptDataHandler) :
    Except TranscriptionError (Option (List Entry)) × PipelineState :=
  let st0 : PipelineState :=
    ⟨data_handler, [], [], Option.none, Option.none, 0⟩
  match run with
  | StreamRun.success evs =>
    let stF := evs.foldl (fun st ev => (handle_transcript_event cfg tr clock ev st).1) st0
    (Except.ok (Option.some (get_transcript_data stF.data_handler).1), stF)
  | StreamRun.failure evs msg =>
    let stF := evs.foldl (fun st ev => (handle_transcript_event cfg tr clock ev st).1) st0
    let _discarded_error : TranscriptionError :=
      ⟨"transcript streaming client error: " ++ msg, Option.none⟩
    (Except.ok Option.none, stF)

lemma handleAlternative_same (cfg : TranscriptHandlerConfig) (tr tr' : TranslateFn)
    (clock : Nat → String × String) (b1 b2 p : Bool) (t : String) (st : PipelineState) :
    handleAlternative cfg tr clock true b1 b2 p t st
        = handleAlternative cfg tr' clock true b1 b2 p t st ∧
    (handleAlternative cfg tr clock true b1 b2 p t st).2 = [] := by
  unfold handleAlternative
  simp

lemma processAlternatives_same (cfg : TranscriptHandlerConfig) (tr tr' : TranslateFn)
    (clock : Nat → String × String) (b1 b2 p : Bool) :
    ∀ (alts : List ResultAlternative) (st : PipelineState),
      processAlternatives cfg tr clock true b1 b2 p alts st
          = processAlternatives cfg tr' clock true b1 b2 p alts st ∧
      (processAlternatives cfg tr clock true b1 b2 p alts st).2 = [] := by
  intro alts
  induction alts with
  | nil => intro st; exact ⟨rfl, rfl⟩
  | cons a rest ih =>
    intro st
    obtain ⟨hEq, hNil⟩ := handleAlternative_same cfg tr tr' clock b1 b2 p a.transcript st
    constructor
    · simp only [processAlternatives]
      rw [hEq, (ih ((handleAlternative cfg tr' clock true b1 b2 p a.transcript st).1)).1]
    · simp only [processAlternatives]
      rw [hNil, (ih ((handleAlternative cfg tr clock true b1 b2 p a.transcript st).1)).2]
      rfl

lemma processResults_same (cfg : TranscriptHandlerConfig) (tr tr' : TranslateFn)
    (clock : Nat → String × String) (b1 b2 : Bool) :
    ∀ (results : List TranscriptResult) (st : PipelineState),
      processResults cfg tr clock true b1 b2 results st
          = processResults cfg tr' clock true b1 b2 results st ∧
      (processResults cfg tr clock true b1 b2 results st).2 = [] := by
  intro results
  induction results with
  | nil => intro st; exact ⟨rfl, rfl⟩
  | cons r rest ih =>
    intro st
    obtain ⟨hEq, hNil⟩ :=
      processAlternatives_same cfg tr tr' clock b1 b2 r.partial_flag r.alternatives st
    constructor
    · simp only [processResults]
      rw [hEq,
        (ih ((processAlternatives cfg tr' clock true b1 b2 r.partial_flag
          r.alternatives st).1)).1]
    · simp only [processResults]
      rw [hNil,
        (ih ((processAlternatives cfg tr clock true b1 b2 r.partial_flag
          r.alternatives st).1)).2]
      rfl

/-- C5: when the configured source language equals the target language
(exactly, or via the documented legacy alias source `en-US` / target `en`),
processing a transcript event is identical to processing it with the identity
translation — i.e. the translated text used for every cue and output entry is
the source transcript text unchanged — and the Translation Adapter is never
invoked (the call log is empty). -/
theorem c5_same_language_no_translation (cfg : TranscriptHandlerConfig)
    (tr : TranslateFn) (clock : Nat → String × String) (ev : TranscriptEvent)
    (st : PipelineState)
    (h : cfg.source_language = cfg.target_language ∨
      (cfg.source_language = "en-US" ∧ cfg.target_language = "en")) :
    handle_transcript_event cfg tr clock ev st
        = handle_transcript_event cfg (fun text _src _tgt _reg => text) clock ev st ∧
    (handle_transcript_event cfg tr clock ev st).2 = [] := by
  have hsame : sameLanguages cfg = true := by
    rcases h with h1 | ⟨h2, h3⟩
    · unfold sameLanguages
      rw [h1]
      simp
    · unfold sameLanguages
      rw [h2, h3]
      decide
  unfold handle_transcript_event
  rw [hsame]
  exact processResults_same cfg tr _ clock _ _ ev.transcript.results st

/-- A concrete session configuration with the legacy language alias and the
`both_text` output policy. -/
def demoConfig : TranscriptHandlerConfig :=
  ⟨"en-US", "en", "vtt", "us-east-1", OutputFormat.BOTH_TEXT⟩

/-- A concrete environment clock for subtitle timestamps. -/
def demoClock : Nat → String × String := fun _ => ("00:00:00.000", "00:00:08.000Z")

/-- A concrete non-identity translation function. -/
def demoTranslate : TranslateFn := fun text _src _tgt _reg => "[es] " ++ text

/-- A concrete transcript event with one final (non-partial) alternative. -/
def demoEvent : TranscriptEvent := ⟨⟨[⟨[⟨"hello"⟩], false⟩]⟩⟩

/-- The pipeline state `basic_transcribe` starts from: fresh store and files. -/
def initialState : PipelineState :=
  ⟨⟨[], []⟩, [], [], Option.none, Option.none, 0⟩

/-- C5 witness: the theorem applied to the concrete legacy-alias session. -/
theorem c5_same_language_witness :
    handle_transcript_event demoConfig demoTranslate demoClock demoEvent initialState
        = handle_transcript_event demoConfig (fun text _src _tgt _reg => text)
            demoClock demoEvent initialState ∧
    (handle_transcript_event demoConfig demoTranslate demoClock demoEvent
        initialState).2 = [] :=
  c5_same_language_no_translation demoConfig demoTranslate demoClock demoEvent
    initialState (Or.inr ⟨rfl, rfl⟩)

lemma handleAlternative_data_handler (cfg : TranscriptHandlerConfig)
    (tr : TranslateFn) (clock : Nat → String × String) (s b1 b2 p : Bool)
    (t : String) (st : PipelineState) :
    (handleAlternative cfg tr clock s b1 b2 p t st).1.data_handler
      = st.data_handler := by
  unfold handleAlternative
  dsimp only
  split_ifs <;> rfl

lemma processAlternatives_data_handler (cfg : TranscriptHandlerConfig)
    (tr : TranslateFn) (clock : Nat → String × String) (s b1 b2 p : Bool) :
    ∀ (alts : List ResultAlternative) (st : PipelineState),
      (processAlternatives cfg tr clock s b1 b2 p alts st).1.data_handler
        = st.data_handler := by
  intro alts
  induction alts with
  | nil => intro st; rfl
  | cons a rest ih =>
    intro st
    simp only [processAlternatives]
    rw [ih]
    exact handleAlternative_data_handler cfg tr clock s b1 b2 p a.transcript st

lemma processResults_data_handler (cfg : TranscriptHandlerConfig)
    (tr : TranslateFn) (clock : Nat → String × String) (s b1 b2 : Bool) :
    ∀ (results : List TranscriptResult) (st : PipelineState),
      (processResults cfg tr clock s b1 b2 results st).1.data_handler
        = st.data_handler := by
  intro results
  induction results with
  | nil => intro st; rfl
  | cons r rest ih =>
    intro st
    simp only [processResults]
    rw [ih]
    exact processAlternatives_data_handler cfg tr clock s b1 b2 r.partial_flag
      r.alternatives st

/-- C1 (code bug): `handle_transcript_event` never appends to the
Transcript/Translation Store — for every configuration, event and state the
`data_handler` logs are unchanged — even though for a final (non-partial)
alternative under the `both_text` policy the text is persisted (to the output
text files instead), as the concrete evaluation shows.  The claim's
"always appended to the Store when `is_partial` is false" is therefore
violated by the code, whose own docstrings say the handler stores transcript
data in the `TranscriptDataHandler`. -/
theorem c1_final_event_store_untouched :
    (∀ (cfg : TranscriptHandlerConfig) (tr : TranslateFn)
        (clock : Nat → String × String) (ev : TranscriptEvent) (st : PipelineState),
      (handle_transcript_event cfg tr clock ev st).1.data_handler
        = st.data_handler) ∧
    (handle_transcript_event demoConfig demoTranslate demoClock demoEvent
        initialState).1.transcript_file = ["hello"] ∧
    (handle_transcript_event demoConfig demoTranslate demoClock demoEvent
        initialState).1.translated_file = ["hello"] := by
  refine ⟨?_, rfl, rfl⟩
  intro cfg tr clock ev st
  exact processResults_data_handler cfg tr clock _ _ _ ev.transcript.results st

/-- C2 (code bug): when the stream fails mid-session — here after one final
event was already processed — `basic_transcribe` constructs a
`TranscriptionError` without raising it and returns `None`: the caller
receives `Except.ok Option.none`, so no error (with or without the original
cause) is surfaced and no transcript snapshot is returned. -/
theorem c2_failure_returns_none_not_error :
    (basic_transcribe demoConfig demoTranslate demoClock
        (StreamRun.failure [demoEvent] "simulated transport failure")
        ⟨[], []⟩).1 = Except.ok Option.none := rfl

/-- C10: the Store's operations are exactly as claimed: each `store_*`
appends exactly one `(text, is_partial)` pair to its own log and leaves the
other log (and all previously stored entries, as prefix of the append)
unchanged, and each `get_*` returns a snapshot equal to the log while leaving
the handler state unchanged (the Python `[:]` copy is value semantics here,
so mutation of the returned list cannot reach the Store). -/
theorem c10_store_frame :
    ∀ (h : TranscriptDataHandler) (t u : String) (p q : Bool),
      (store_transcript_data h t p).transcript_data
          = h.transcript_data ++ [(t, p)] ∧
      (store_transcript_data h t p).translated_data = h.translated_data ∧
      (store_translated_data h u q).translated_data
          = h.translated_data ++ [(u, q)] ∧
      (store_translated_data h u q).transcript_data = h.transcript_data ∧
      get_transcript_data h = (h.transcript_data, h) ∧
      get_translated_data h = (h.translated_data, h) := by
  intro h t u p q
  exact ⟨rfl, rfl, rfl, rfl, rfl, rfl⟩

/-!
Configuration validation (`models.py`): the `SourceLanguage`,
`TargetLanguage`, `SubtitleFormat` and `OutputFormat` enums and
`UserInput.from_input_data`.  The enum lookup is
`if language_code in language_enum.value` — Python substring containment —
over the members in declaration order.
-/

/-- Python `needle in hay` substring containment. -/
def strContains (hay needle : String) : Bool :=
  (List.range (hay.data.length + 1)).any
    (fun i => needle.data.isPrefixOf (hay.data.drop i))

/-- The `SourceLanguage` enum values, in declaration order. -/
def source_language_values : List String := ["en-US"]

/-- The `TargetLanguage` enum values, in declaration order. -/
def target_language_values : List String :=
  ["af", "sq", "am", "ar", "hy", "az", "bn", "bs", "bg", "ca", "zh", "zh-TW",
   "hr", "cs", "da", "fa-AF", "nl", "et", "fa", "tl", "fi", "fr", "fr-CA",
   "ka", "de", "el", "gu", "ht", "ha", "he", "hi", "hu", "is", "id", "ga",
   "it", "ja", "kn", "kk", "ko", "lv", "lt", "mk", "ms", "ml", "mt", "mr",
   "mn", "no", "ps", "pl", "pt", "pt-PT", "pa", "ro", "ru", "sr", "si", "sk",
   "sl", "so", "es", "es-MX", "sw", "sv", "ta", "te", "th", "tr", "uk", "ur",
   "uz", "vi", "cy"]

/-- `UserInput.get_language_enum`: scan the enum members in order and return
the first whose value contains `language_code` as a substring, else `None`. -/
def get_language_enum (values : List String) (language_code : String) :
    Option String :=
  values.find? (fun v => strContains v language_code)

/-- `OutputFormat(value)` construction from a string: the enum value lookup
raises `ValueError` (here `none`) on a miss. -/
def parseOutputFormat (s : String) : Option OutputFormat :=
  match s with
  | "transcript_text" => Option.some OutputFormat.TRANSCRIPT_TEXT
  | "translated_text" => Option.some OutputFormat.TRANSLATED_TEXT
  | "both_text" => Option.some OutputFormat.BOTH_TEXT
  | "none" => Option.some OutputFormat.NONE
  | _ => Option.none

/-- The validated configuration object (`UserInput` with canonical values). -/
structure UserInput where
  source_language : String
  target_language : String
  subtitle_format : String
  region : String
  output_format : OutputFormat
deriving Repr, DecidableEq

/-- The input dictionary of `UserInput.from_input_data`: the three required
keys plus the optional `region` and `output_format` keys. -/
structure InputData where
  source_language : String
  target_language : String
  subtitle_format : String
  region : Option String
  output_format : Option String
deriving Repr, DecidableEq

/-- `UserInput.from_input_data`: look up the source and target languages with
`get_language_enum` (a `None` result makes the subsequent `.value` access
raise `AttributeError`), construct `SubtitleFormat(...)` (raising
`ValueError` on a non-member), default the region to `us-east-1`, and default
the output format to `OutputFormat.NONE` when the key is absent, validating
it when present. -/
def from_input_data (input_data : InputData) : Except String UserInput :=
  match get_language_enum source_language_values input_data.source_language with
  | Option.none => Except.error "AttributeError: NoneType has no attribute value"
  | Option.some src =>
    match get_language_enum target_language_values input_data.target_language with
    | Option.none => Except.error "AttributeError: NoneType has no attribute value"
    | Option.some tgt =>
      if input_data.subtitle_format = "srt" ∨ input_data.subtitle_format = "vtt" then
        let region := input_data.region.getD "us-east-1"
        match input_data.output_format with
        | Option.none =>
          Except.ok ⟨src, tgt, input_data.subtitle_format, region, OutputFormat.NONE⟩
        | Option.some ofs =>
          match parseOutputFormat ofs with
          | Option.some f =>
            Except.ok ⟨src, tgt, input_data.subtitle_format, region, f⟩
          | Option.none => Except.error "ValueError: invalid OutputFormat"
      else Except.error "ValueError: invalid SubtitleFormat"

/-- C9 (code bug): the invalid source-language code `"e"` does not fail at
configuration-construction time: because the lookup tests substring
containment (`language_code in language_enum.value`), `"e"` matches the
member `en-US` and `from_input_data` succeeds, returning a configuration with
source language `en-US` — so not every invalid value causes a validation
failure before streaming starts. -/
theorem c9_invalid_language_accepted :
    from_input_data ⟨"e", "es", "srt", Option.none, Option.none⟩
      = Except.ok ⟨"en-US", "es", "srt", "us-east-1", OutputFormat.NONE⟩ := rfl

/-!
The timestamp rendering the writers perform after `calculate_end_time`
computes `end_dt`: `end_dt.strftime("%H:%M:%S.%f")[:-3] + "Z"`.  `strftime`
renders only the time of day of `end_dt`, so after the `timedelta` addition
the rendered end wraps modulo 24 hours; `[:-3]` truncates the microsecond
field to milliseconds.  At the program's millisecond-precision inputs the
floor below is exact.
-/

/-- The millisecond-of-day an instant (in seconds) is rendered as:
milliseconds truncated, wrapped modulo 24 hours as `strftime` does. -/
def msOfDay (t : ℚ) : Nat := (Int.toNat ⌊t * 1000⌋) % 86400000

/-- Zero-padded two-digit decimal field of `strftime`. -/
def pad2 (n : Nat) : String := if n < 10 then "0" ++ natRepr n else natRepr n

/-- Zero-padded three-digit millisecond field (`%f` truncated by `[:-3]`). -/
def pad3 (n : Nat) : String :=
  if n < 10 then "00" ++ natRepr n
  else if n < 100 then "0" ++ natRepr n
  else natRepr n

/-- Render a millisecond-of-day as `HH:MM:SS.mmm`. -/
def formatMs (ms : Nat) : String :=
  pad2 (ms / 3600000) ++ ":" ++ pad2 ((ms / 60000) % 60) ++ ":"
    ++ pad2 ((ms / 1000) % 60) ++ "." ++ pad3 (ms % 1000)

/-- `strftime("%H:%M:%S.%f")[:-3]` applied to an instant: the time of day,
wrapped modulo 24 hours. -/
def formatTimeOfDay (t : ℚ) : String := formatMs (msOfDay t)

/-- `SubtitleGenerator.calculate_end_time` including the final string
rendering: the end instant rendered as a wrapped time-of-day string with the
trailing `"Z"` the code appends. -/
def calculate_end_time_rendered (start_time : Option ℚ) (text : String)
    (average_words_per_minute : ℚ) : Option String :=
  match calculate_end_time start_time text average_words_per_minute with
  | Option.none => Option.none
  | Option.some e => Option.some (formatTimeOfDay e ++ "Z")

/-- C8 counterexample: for the start `23:59:58.000` (instant 86398 s of the
day) and the empty text, the added duration is exactly 3 s, so the end
instant 86401 s crosses midnight and the writer renders it as
`00:00:01.000Z` — a time of day strictly earlier than the start — so the
written end timestamp is not strictly later than the given start timestamp. -/
theorem c8_counterexample_midnight_wrap :
    formatTimeOfDay (86398 : ℚ) = "23:59:58.000" ∧
    calculate_end_time_rendered (Option.some 86398) "" 150
      = Option.some "00:00:01.000Z" ∧
    msOfDay ((86398 : ℚ) + additional_seconds "" 150) < msOfDay (86398 : ℚ) := by
  have hms1 : msOfDay (86398 : ℚ) = 86398000 := by
    unfold msOfDay
    rw [show ((86398 : ℚ) * 1000) = ((86398000 : ℤ) : ℚ) by norm_num,
      Int.floor_intCast]
    decide
  have hms2 : msOfDay ((86398 : ℚ) + additional_seconds "" 150) = 1000 := by
    rw [additional_seconds_empty]
    unfold msOfDay
    rw [show (((86398 : ℚ) + 3) * 1000) = ((86401000 : ℤ) : ℚ) by norm_num,
      Int.floor_intCast]
    decide
  refine ⟨?_, ?_, ?_⟩
  · unfold formatTimeOfDay
    rw [hms1]
    rfl
  · have hfmt : formatTimeOfDay ((86398 : ℚ) + additional_seconds "" 150)
        = "00:00:01.000" := by
      unfold formatTimeOfDay
      rw [hms2]
      rfl
    show Option.some (formatTimeOfDay ((86398 : ℚ) + additional_seconds "" 150) ++ "Z")
        = Option.some "00:00:01.000Z"
    rw [hfmt]
    rfl
  · rw [hms1, hms2]
    norm_num

/-- C8 (amended): for every start instant and every text (including the
empty string), the end instant computed by `calculate_end_time` at 150 words
per minute is strictly later than the start — the added duration is at least
3 seconds since `sentence_count` is at least 1 — and the writers render that
instant wrapped modulo 24 hours; when the cue does not cross midnight the
rendered end is a strictly later time of day than the start, while a cue
crossing midnight is written with an earlier-in-day end timestamp. -/
theorem c8_end_after_start_unless_midnight :
    (∀ (s : ℚ) (text : String), ∃ e,
        calculate_end_time (Option.some s) text 150 = Option.some e ∧
        s < e ∧ s + 3 ≤ e ∧
        calculate_end_time_rendered (Option.some s) text 150
          = Option.some (formatTimeOfDay e ++ "Z")) ∧
    (∀ (s : ℚ) (text : String), 0 ≤ s →
        s + additional_seconds text 150 < 86400 →
        msOfDay s < msOfDay (s + additional_seconds text 150)) := by
  constructor
  · intro s text
    have h := additional_seconds_ge_three text
    exact ⟨s + additional_seconds text 150, rfl, by linarith, by linarith, rfl⟩
  · intro s text hs hlt
    have hadd := additional_seconds_ge_three text
    have hx0 : (0 : ℤ) ≤ ⌊s * 1000⌋ := Int.floor_nonneg.mpr (by positivity)
    have hxy : ⌊s * 1000⌋ + 3000 ≤ ⌊(s + additional_seconds text 150) * 1000⌋ := by
      have h1 : s * 1000 + ((3000 : ℤ) : ℚ)
          ≤ (s + additional_seconds text 150) * 1000 := by
        push_cast
        nlinarith
      calc ⌊s * 1000⌋ + 3000 = ⌊s * 1000 + ((3000 : ℤ) : ℚ)⌋ :=
            (Int.floor_add_int (s * 1000) 3000).symm
        _ ≤ ⌊(s + additional_seconds text 150) * 1000⌋ := Int.floor_mono h1
    have hy : ⌊(s + additional_seconds text 150) * 1000⌋ < 86400000 := by
      refine Int.floor_lt.mpr ?_
      push_cast
      nlinarith
    unfold msOfDay
    omega

/-- C8 witness: for start instant 0 and the empty text the cue stays inside
the day and the rendered end is a later time of day than the start. -/
theorem c8_midnight_witness :
    (0 : ℚ) ≤ 0 ∧ (0 : ℚ) + additional_seconds "" 150 < 86400 ∧
    msOfDay 0 < msOfDay ((0 : ℚ) + additional_seconds "" 150) := by
  have hlt : (0 : ℚ) + additional_seconds "" 150 < 86400 := by
    rw [additional_seconds_empty]
    norm_num
  exact ⟨le_refl 0, hlt,
    c8_end_after_start_unless_midnight.2 0 "" (le_refl 0) hlt⟩
